import Mathlib

/-!
Verification of the `pyte.backend.pdf` PDF writer (`cos.py` and `__init__.py`)
against its natural-language specification.

Python strings are embedded as `List Char`, byte strings as `List Nat`
(one natural number per byte).  Fallible Python code (attribute errors,
assertion errors, swallowed exceptions) is embedded with `Except` / `Option`.
-/

namespace Pyte

/-- Byte strings: one natural number per byte. -/
abbrev Bytes := List Nat

/-- `str.encode('utf_8')` for the ASCII strings the writer produces:
each character is one byte. -/
def charBytes (s : List Char) : Bytes := s.map Char.toNat

/-- Python `str(n)` / `'{}'.format(n)` for a non-negative integer:
the decimal representation, `Nat.repr`. -/
def natStr (n : Nat) : List Char := (Nat.repr n).data

/-- Python `'{:0wd}'.format(n)` for a non-negative integer: the decimal
representation left-padded with `'0'` to a minimum width of `w`. -/
def zeroPad (w : Nat) (n : Nat) : List Char :=
  List.replicate (w - (natStr n).length) '0' ++ natStr n

/-- The only Python exception kinds the embedded code can raise. -/
inductive PyError
  | attributeError
  | assertionError
deriving DecidableEq

/-! ## Identifier assignment (`Object.__init__` / `Document.next_identifier`) -/

/-- The identifier-assigning state of `cos.Document`: the `_identifier`
counter and, in registration order, the identifiers handed to the objects
appended to `self.objects`. -/
structure RegDocument where
  _identifier : Nat
  objectIds : List Nat
deriving DecidableEq

/-- One registration: `Object.__init__` with a document reads
`document.next_identifier` (which increments the counter and returns its new
value) and then calls `document.append(self)`. -/
def registerObject (d : RegDocument) : RegDocument :=
  { _identifier := d._identifier + 1, objectIds := d.objectIds ++ [d._identifier + 1] }

/-- `cos.Document.__init__` before any object is registered:
`self._identifier = 0`, `self.objects = []`. -/
def freshRegDocument : RegDocument := { _identifier := 0, objectIds := [] }

/-- The document state after `n` registrations. -/
def registerN (n : Nat) : RegDocument := registerObject^[n] freshRegDocument

/-! ## `Canvas.show_glyphs` character mapping -/

/-- The output character(s) `Canvas.show_glyphs` produces for one glyph's
character code.  Codes below 0 give `'?'`; codes above 127 go through the
format string `'\{:03d}'`, which is a literal backslash followed by the
3-digit zero-padded *decimal* representation of the code; codes 0–127 give
`chr(code)`, with `'\'`, `'('`, `')'` preceded by a backslash. -/
def showGlyphsChar (code : Int) : List Char :=
  if code < 0 then ['?']
  else if code > 127 then '\\' :: zeroPad 3 code.toNat
  else
    let char := Char.ofNat code.toNat
    if char = '\\' ∨ char = '(' ∨ char = ')' then ['\\', char] else [char]

/-! ## Reference resolution (`Reference.target`) -/

/-- The registry of a `cos.Document` as reference resolution would see it:
the values registered with the document, in registration order. -/
structure LookupDocument where
  objects : List Bytes

/-- The call `self.document.get_indirect_object(identifier, generation)` made
by `Reference.target`: the `Document` class defines no attribute or method
named `get_indirect_object`, so every such call raises `AttributeError`,
whatever the document state and arguments. -/
def LookupDocument.get_indirect_object (_d : LookupDocument)
    (_identifier _generation : Nat) : Except PyError Bytes :=
  .error .attributeError

/-- `Reference.target`: the lookup is wrapped in `try`/`except Exception: pass`,
so any raised exception becomes a silent `None` (embedded as `none`) instead of
propagating. -/
def referenceTarget (d : LookupDocument) (identifier generation : Nat) : Option Bytes :=
  match d.get_indirect_object identifier generation with
  | .ok v => some v
  | .error _ => none

/-! ## `Null` and the use-site encoding contract (`Object.bytes`) -/

/-- A Python instance attribute holding an identifier: `none` when the
attribute was never set (reading it raises `AttributeError`), `some none`
when it was set to Python `None`, `some (some i)` when set to `i`. -/
abbrev IdentifierAttr := Option (Option Nat)

/-- `Object.is_direct`: reads `self.identifier` and compares with `None`;
raises `AttributeError` when the attribute is absent. -/
def isDirectAttr : IdentifierAttr → Except PyError Bool
  | none => .error .attributeError
  | some v => .ok v.isNone

/-- `Object.bytes`, the uniform use-site encoding: `self._bytes()` when the
object is direct, `self.reference.bytes()` when it is indirect
(`referenceAttr` is the instance's `reference` attribute, which
`Object.__init__` sets only for registered objects). -/
def objectUseSiteBytes (identifierAttr : IdentifierAttr)
    (referenceAttr : Option Bytes) (body : Bytes) : Except PyError Bytes := do
  let direct ← isDirectAttr identifierAttr
  if direct then
    pure body
  else
    match referenceAttr with
    | none => .error .attributeError
    | some r => pure r

/-! ## String escaping (`String._bytes`) and the conformant reader's unescaping -/

/-- Python `str.replace(c, r)` for a one-character pattern: every occurrence
of the character `c` is replaced by the string `r`. -/
def pyReplace (c : Char) (r : List Char) (s : List Char) : List Char :=
  s.flatMap fun x => if x = c then r else [x]

/-- The escaping `String._bytes` applies before wrapping the value in
parentheses, reading innermost-first: the five two-character escapes, in
source order (newline, carriage return, tab, backspace, form feed), then a
backslash before each of `'\'`, `'('`, `')'` (iterating over the string
`'\\()'`, so the backslash is escaped first). -/
def stringEscape (s : List Char) : List Char :=
  pyReplace ')' ['\\', ')']
    (pyReplace '(' ['\\', '(']
      (pyReplace '\\' ['\\', '\\']
        (pyReplace '\x0c' ['\\', 'f']
          (pyReplace '\x08' ['\\', 'b']
            (pyReplace '\t' ['\\', 't']
              (pyReplace '\r' ['\\', 'r']
                (pyReplace '\n' ['\\', 'n'] s)))))))

/-- Octal digits, as a conformant reader of `\ddd` escapes classifies them. -/
def isOctalDigit (c : Char) : Bool := '0' ≤ c && c ≤ '7'

/-- The character denoted by a three-octal-digit escape `\d₁d₂d₃`. -/
def octalChar (d1 d2 d3 : Char) : Char :=
  Char.ofNat (((d1.toNat - 48) * 8 + (d2.toNat - 48)) * 8 + (d3.toNat - 48))

/-- The character denoted by a two-character escape `\d`, when `d` is one of
the eight escape letters; `none` otherwise. -/
def escCode (d : Char) : Option Char :=
  if d = 'n' then some '\n'
  else if d = 'r' then some '\r'
  else if d = 't' then some '\t'
  else if d = 'b' then some '\x08'
  else if d = 'f' then some '\x0c'
  else if d = '\\' then some '\\'
  else if d = '(' then some '('
  else if d = ')' then some ')'
  else none

/-- Modelled from the spec: the unescaping a conformant reader of the output
format applies to the text found between `(` and `)` (the reader side is not
part of this repository).  A backslash introduces an escape sequence: `\n`,
`\r`, `\t`, `\b`, `\f` denote the control characters, `\\`, `\(`, `\)` the
escaped character itself, a backslash followed by one to three octal digits
the character with that octal code, a backslash before any other character is
dropped, and a lone trailing backslash is ignored. -/
def readerUnescapeFuel : Nat → List Char → List Char
  | _, [] => []
  | 0, _ :: _ => []
  | fuel + 1, c :: rest =>
    if c = '\\' then
      match rest with
      | [] => []
      | d :: t =>
        match escCode d with
        | some e => e :: readerUnescapeFuel fuel t
        | none =>
          if isOctalDigit d then
            match t with
            | d2 :: t2 =>
              if isOctalDigit d2 then
                match t2 with
                | d3 :: t3 =>
                  if isOctalDigit d3 then octalChar d d2 d3 :: readerUnescapeFuel fuel t3
                  else octalChar '0' d d2 :: readerUnescapeFuel fuel (d3 :: t3)
                | [] => octalChar '0' d d2 :: readerUnescapeFuel fuel []
              else octalChar '0' '0' d :: readerUnescapeFuel fuel (d2 :: t2)
            | [] => octalChar '0' '0' d :: readerUnescapeFuel fuel []
          else d :: readerUnescapeFuel fuel t
    else c :: readerUnescapeFuel fuel rest

/-- The reader's unescaping of a complete string: the fuel argument of
`readerUnescapeFuel` only bounds the number of produced characters, and one
unit per input character is always enough. -/
def readerUnescape (s : List Char) : List Char := readerUnescapeFuel s.length s

/-- The combined effect of the three backslash-escaping passes on a single
character, used to describe `stringEscape` on control-character-free input. -/
def escMap (c : Char) : List Char :=
  if c = '\\' ∨ c = '(' ∨ c = ')' then ['\\', c] else [c]

/-- `Null._bytes()`: the literal `null`. -/
def nullDirectBytes : Bytes := charBytes "null".data

/-- `Null().bytes()`: `Null.__init__` is `pass` and never calls
`Object.__init__`, so the instance has neither an `identifier` nor a
`reference` attribute. -/
def nullUseSiteBytes : Except PyError Bytes :=
  objectUseSiteBytes none none nullDirectBytes

/-! ## Pages tree (`Pages.new_page` / `Page.__init__`) -/

/-- The content of an indirect reference: identifier and generation. -/
structure Ref where
  identifier : Nat
  generation : Nat
deriving DecidableEq

/-- The state of one `Document`'s `Pages` tree: the document's identifier
counter, the reference of the `Pages` node, the node's `Count` and `Kids`
entries, and for every registered `Page` object its identifier paired with
its `Parent` entry. -/
structure PagesDoc where
  _identifier : Nat
  pagesRef : Ref
  count : Nat
  kids : List Ref
  pageParents : List (Nat × Ref)
deriving DecidableEq

/-- `Pages.new_page(width, height)`: `Page.__init__` registers the new page
with `parent.document` (next identifier, generation 0) and sets the page's
`Parent` entry to `parent.reference`; then `new_page` appends
`page.reference` to `Kids` and replaces `Count` by `Count + 1`.  The width
and height arguments only populate the page's `MediaBox` entry. -/
def newPage (s : PagesDoc) (_width _height : ℚ) : PagesDoc :=
  { s with
    _identifier := s._identifier + 1
    pageParents := s.pageParents ++ [(s._identifier + 1, s.pagesRef)]
    kids := s.kids ++ [⟨s._identifier + 1, 0⟩]
    count := s.count + 1 }

/-- The `Pages` tree of a fresh `cos.Document()`: the `Pages` node is
registered first (identifier 1) with `Count = 0` and empty `Kids`, then the
`Catalog` (identifier 2). -/
def freshPagesDoc : PagesDoc :=
  { _identifier := 2, pagesRef := ⟨1, 0⟩, count := 0, kids := [], pageParents := [] }

/-- The `Pages` tree after a sequence of `new_page` calls with the given
page dimensions. -/
def newPages (dims : List (ℚ × ℚ)) : PagesDoc :=
  dims.foldl (fun s wh => newPage s wh.1 wh.2) freshPagesDoc

/-! ## Font registration (backend `Document.register_font` / `Page.register_font`) -/

/-- The document-level `Font` dictionary created for a font: its registered
identifier and its `Subtype` and `BaseFont` entries. -/
structure FontRsc where
  identifier : Nat
  subtype : List Char
  baseFont : List Char
deriving DecidableEq

/-- Backend `Document` state relevant to font registration: the underlying
`cos.Document`'s identifier counter (creating a `cos.Font` registers it with
the document) and the `self.fonts` cache, keyed by font identity, in
insertion order. -/
structure FontDoc where
  cosIdentifier : Nat
  fonts : List (Nat × FontRsc)
deriving DecidableEq

/-- Backend `Page` state relevant to font registration: `self.font_number`
(the next alias number, starting at 1), the `self.font_names` cache, and the
page's `Resources`/`Font` dictionary mapping alias names to references to
the shared `Font` dictionaries. -/
structure FontPage where
  font_number : Nat
  font_names : List (Nat × List Char)
  resourceFonts : List (List Char × Ref)
deriving DecidableEq

/-- A freshly constructed backend `Page`: `font_number = 1`, empty caches. -/
def freshFontPage : FontPage := { font_number := 1, font_names := [], resourceFonts := [] }

/-- Python `dict` lookup on an insertion-ordered association list. -/
def dictLookup {α : Type} (key : Nat) (d : List (Nat × α)) : Option α :=
  (d.find? fun e => e.1 == key).map (·.2)

/-- Backend `Document.register_font(font)`: a cache hit returns the cached
`Font` dictionary; a miss asserts the font is a core font, creates a
`cos.Font` registered with the document (with `Subtype = Type1` and
`BaseFont = font.psFont.ps_name`), caches it and returns it.  Fonts are
identified by an opaque key; `core` and `psName` stand for the font-metrics
collaborator. -/
def documentRegisterFont (core : Nat → Bool) (psName : Nat → List Char)
    (d : FontDoc) (font : Nat) : Except PyError (FontRsc × FontDoc) :=
  match dictLookup font d.fonts with
  | some rsc => .ok (rsc, d)
  | none =>
    if core font then
      let rsc : FontRsc := ⟨d.cosIdentifier + 1, "Type1".data, psName font⟩
      .ok (rsc, { cosIdentifier := d.cosIdentifier + 1, fonts := d.fonts ++ [(font, rsc)] })
    else .error .assertionError

/-- Backend `Page.register_font(font)`: a cache hit returns the cached
alias; a miss obtains the document-level `Font` resource, allocates the next
alias `F{font_number}`, records `alias -> font_rsc.reference` in the page's
`Resources`/`Font` dictionary and caches the alias. -/
def pageRegisterFont (core : Nat → Bool) (psName : Nat → List Char)
    (d : FontDoc) (p : FontPage) (font : Nat) :
    Except PyError (List Char × FontDoc × FontPage) :=
  match dictLookup font p.font_names with
  | some name => .ok (name, d, p)
  | none => do
    let (rsc, d') ← documentRegisterFont core psName d font
    let name := 'F' :: natStr p.font_number
    .ok (name, d',
      { font_number := p.font_number + 1
        font_names := p.font_names ++ [(font, name)]
        resourceFonts := p.resourceFonts ++ [(name, ⟨rsc.identifier, 0⟩)] })

/-! ## Value encodings used by the writer -/

/-- `Name._bytes`: `/` followed by the literal name text. -/
def nameBytes (n : List Char) : Bytes := charBytes ('/' :: n)

/-- `Integer._bytes` for a natural-number value: decimal ASCII. -/
def intBytes (n : Nat) : Bytes := charBytes (natStr n)

/-- `Reference.bytes`: the use-site token `{identifier} {generation} R`. -/
def refBytes (r : Ref) : Bytes :=
  charBytes (natStr r.identifier ++ " ".data ++ natStr r.generation ++ " R".data)

/-- `Array._bytes`: `[` + the elements' use-site bytes joined by single
spaces + `]`. -/
def arrayBytes (elems : List Bytes) : Bytes :=
  charBytes "[".data ++ (List.intersperse (charBytes " ".data) elems).flatten ++
    charBytes "]".data

/-- `Dictionary._bytes`: `<< ` + the space-joined `/key value` pairs, in
insertion order, + ` >>`. -/
def dictBytes (entries : List (List Char × Bytes)) : Bytes :=
  charBytes "<< ".data ++
    (List.intersperse (charBytes " ".data)
      (entries.map fun e => nameBytes e.1 ++ charBytes " ".data ++ e.2)).flatten ++
    charBytes " >>".data

/-! ## The document writer (`Document.write` and `XRefTable`) -/

/-- A registered object as the writer sees it: identifier, generation, and
direct body bytes (the object's `_bytes()`). -/
structure WObj where
  identifier : Nat
  generation : Nat
  body : Bytes
deriving DecidableEq

/-- The `{identifier} {generation} obj` text that opens an object's indirect
form, and whose file position the xref table must record. -/
def objHeader (o : WObj) : List Char :=
  natStr o.identifier ++ " ".data ++ natStr o.generation ++ " obj".data

/-- `Object.indirect_bytes`: `{id} {gen} obj\n` + `_bytes()` + `\nendobj`. -/
def indirectBytes (o : WObj) : Bytes :=
  charBytes (objHeader o ++ "\n".data) ++ o.body ++ charBytes "\nendobj".data

/-- `XRefTable` state: the generations of the appended objects and the
appended addresses, in append order (`self.objects` is only ever read for
`obj.generation`). -/
structure XRefTable where
  objects : List Nat
  addresses : List Nat
deriving DecidableEq

/-- `XRefTable.append(obj, address)`. -/
def XRefTable.append (t : XRefTable) (generation address : Nat) : XRefTable :=
  { objects := t.objects ++ [generation], addresses := t.addresses ++ [address] }

/-- `XRefTable.__len__`: the entry count including the free-list head. -/
def XRefTable.size (t : XRefTable) : Nat := t.objects.length + 1

/-- A fresh `XRefTable()`, as `Document.__init__` creates it once per
document. -/
def XRefTable.empty : XRefTable := ⟨[], []⟩

/-- `XRefTable.__str__`: `xref`, then `\n0 {count+1}`, then the fixed
free-list head entry `\n0000000000 65535 f `, then per appended object the
line `\n{:010d} {:05d} n ` formatted from its address and generation. -/
def XRefTable.str (t : XRefTable) : List Char :=
  "xref".data ++ "\n0 ".data ++ natStr (t.objects.length + 1) ++
    "\n0000000000 65535 f ".data ++
    ((t.objects.zip t.addresses).map fun oa =>
      '\n' :: (zeroPad 10 oa.2 ++ " ".data ++ zeroPad 5 oa.1 ++ " n ".data)).flatten

/-- `XRefTable.bytes`: the table text, UTF-8 encoded. -/
def XRefTable.toBytes (t : XRefTable) : Bytes := charBytes t.str

/-- An `XRefTable` built by appending the given (generation, address) pairs
in order, as the writer's object loop does. -/
def buildXRef (entries : List (Nat × Nat)) : XRefTable :=
  entries.foldl (fun t e => t.append e.1 e.2) XRefTable.empty

/-- The writer-relevant state of a `cos.Document`: the registered objects in
registration order, the document's persistent `XRefTable`, and its
`Catalog`'s reference. -/
structure WDoc where
  objects : List WObj
  xref_table : XRefTable
  catalogRef : Ref
deriving DecidableEq

/-- The object loop of `Document.write`: for each registered object in
order, append `(obj, file.tell())` to the xref table, then write the
object's indirect bytes followed by a newline. -/
def writeObjects : List WObj → Bytes → XRefTable → Bytes × XRefTable
  | [], out, t => (out, t)
  | o :: rest, out, t =>
    writeObjects rest (out ++ indirectBytes o ++ charBytes "\n".data)
      (t.append o.generation out.length)

/-- The file header `Document.write` emits first: the `%PDF-1.4` version
line and the binary-marker comment line `%\xDC\xE1\xD8\xB7`. -/
def headerBytes : Bytes :=
  charBytes "%PDF-1.4\n".data ++ [0x25, 0xDC, 0xE1, 0xD8, 0xB7, 0x0A]

/-- `Document.write(file)` into a fresh, empty file: header, object loop,
xref table (at the remembered `startxref` address), `trailer`, the trailer
dictionary with `Size` and `Root`, `startxref`, the xref address, `%%EOF` —
each `out(...)` call appending a newline.  Returns the written bytes and the
document as the call leaves it: the `XRefTable` mutation persists. -/
def writeDocument (d : WDoc) : Bytes × WDoc :=
  let r := writeObjects d.objects headerBytes d.xref_table
  (r.1 ++ r.2.toBytes ++ charBytes "\n".data ++
    charBytes "trailer\n".data ++
    dictBytes [("Size".data, intBytes r.2.size), ("Root".data, refBytes d.catalogRef)] ++
    charBytes "\n".data ++
    charBytes "startxref\n".data ++
    charBytes (natStr r.1.length) ++ charBytes "\n".data ++
    charBytes "%%EOF\n".data,
   { d with xref_table := r.2 })

/-- The byte offsets at which the object loop writes each object, when the
output already holds `pos` bytes. -/
def objOffsets : List WObj → Nat → List Nat
  | [], _ => []
  | o :: rest, pos => pos :: objOffsets rest (pos + (indirectBytes o).length + 1)

/-- The `Pages` node of a fresh document as registered: identifier 1, body
`<< /Type /Pages /Count 0 /Kids [] >>`. -/
def pagesObj : WObj :=
  ⟨1, 0, dictBytes
    [("Type".data, nameBytes "Pages".data),
     ("Count".data, intBytes 0),
     ("Kids".data, arrayBytes [])]⟩

/-- The `Catalog` of a fresh document: identifier 2, body
`<< /Type /Catalog /Pages 1 0 R >>`. -/
def catalogObj : WObj :=
  ⟨2, 0, dictBytes
    [("Type".data, nameBytes "Catalog".data),
     ("Pages".data, refBytes ⟨1, 0⟩)]⟩

/-- A fresh `cos.Document()` with no pages added: the `Pages` node and the
`Catalog`, an empty xref table, catalog reference `2 0`. -/
def minimalDoc : WDoc := ⟨[pagesObj, catalogObj], XRefTable.empty, ⟨2, 0⟩⟩

/-! ## Line and digit structure (for the xref table layout) -/

/-- Splitting a string into its `'\n'`-separated lines, the layout a
fixed-column xref reader parses. -/
def linesOf : List Char → List (List Char)
  | [] => [[]]
  | c :: rest =>
    if c = '\n' then [] :: linesOf rest
    else
      match linesOf rest with
      | l :: ls => (c :: l) :: ls
      | [] => [[c]]

/-- The numeric value of a decimal digit string, most significant digit
first. -/
def decimalValue (s : List Char) : Nat :=
  s.foldl (fun a c => a * 10 + (c.toNat - 48)) 0

/-- Reference decimal digit list of a natural number, by the usual
most-significant-first recursion; proved equal to `Nat.repr`'s characters. -/
def decimalDigits (n : Nat) : List Char :=
  if n < 10 then [Nat.digitChar n]
  else decimalDigits (n / 10) ++ [Nat.digitChar (n % 10)]
decreasing_by exact Nat.div_lt_self (by omega) (by omega)

end Pyte

namespace Pyte

/-! ## Theorems -/

/-- Auxiliary: one more registration appends the next identifier. -/
theorem registerN_succ (n : Nat) :
    registerN (n + 1) = registerObject (registerN n) := by
  simp [registerN, Function.iterate_succ_apply']

/-- C7: after any number `n` of registrations on one `Document`, the
registered objects hold exactly the identifiers `1, 2, …, n`, in registration
order (so there are no gaps and no reuse), and the counter equals `n`. -/
theorem identifiers_exactly_one_to_N (n : Nat) :
    (registerN n).objectIds = List.range' 1 n ∧ (registerN n)._identifier = n := by
  induction n with
  | zero => simp [registerN, freshRegDocument]
  | succ n ih =>
    rw [registerN_succ, registerObject]
    have h1 : 1 + 1 * n = n + 1 := by ring
    refine ⟨?_, by rw [ih.2]⟩
    rw [ih.1, ih.2, List.range'_concat, h1]

/-- C3: `show_glyphs` renders code 200 as the *decimal* escape `\200`
(the format string `'\{:03d}'` formats in decimal), not as the octal escape
`\310` the specification requires; negative codes do render as `?` and
in-range codes as the (escaped) ASCII character. -/
theorem show_glyphs_code_200_is_decimal_not_octal :
    showGlyphsChar 200 = ['\\', '2', '0', '0'] ∧
    showGlyphsChar 200 ≠ ['\\', '3', '1', '0'] ∧
    showGlyphsChar (-1) = ['?'] ∧
    showGlyphsChar 65 = ['A'] ∧
    showGlyphsChar 40 = ['\\', '('] := by
  refine ⟨by decide, by decide, by decide, by decide, by decide⟩

/-- C4: `Reference.target` yields `None` for every document state and every
identifier — the `Document` class has no `get_indirect_object` method, and the
bare `except` swallows the resulting `AttributeError` — so dereferencing never
returns the registered value and an unknown identifier is never reported as an
error. -/
theorem reference_target_always_none :
    ∀ (d : LookupDocument) (identifier generation : Nat),
      referenceTarget d identifier generation = none ∧
      ∀ v ∈ d.objects, referenceTarget d identifier generation ≠ some v := by
  intro d identifier generation
  refine ⟨rfl, ?_⟩
  intro v _ h
  simp [referenceTarget, LookupDocument.get_indirect_object] at h

/-- Replacing a character that does not occur in the string is the identity. -/
theorem pyReplace_of_forall_ne (c : Char) (r : List Char) (s : List Char)
    (h : ∀ x ∈ s, x ≠ c) : pyReplace c r s = s := by
  induction s with
  | nil => rfl
  | cons a s ih =>
    have ha : a ≠ c := h a (by simp)
    simp only [pyReplace, List.flatMap_cons, if_neg ha] at *
    simp [ih fun x hx => h x (by simp [hx])]

/-- The three backslash-escaping passes act on a string without control
characters exactly as the per-character map `escMap`. -/
theorem triple_escape_eq_flatMap (s : List Char) :
    pyReplace ')' ['\\', ')'] (pyReplace '(' ['\\', '('] (pyReplace '\\' ['\\', '\\'] s)) =
      s.flatMap escMap := by
  induction s with
  | nil => rfl
  | cons a s ih =>
    by_cases h1 : a = '\\'
    · subst h1
      simp only [pyReplace, List.flatMap_cons, escMap] at *
      simp [ih]
    · by_cases h2 : a = '('
      · subst h2
        simp only [pyReplace, List.flatMap_cons, escMap] at *
        simp [ih]
      · by_cases h3 : a = ')'
        · subst h3
          simp only [pyReplace, List.flatMap_cons, escMap] at *
          simp [ih]
        · simp only [pyReplace, List.flatMap_cons, escMap, if_neg h1, if_neg h2, if_neg h3] at *
          simp [ih, h1, h2, h3]

/-- On a string without the five control characters, `String._bytes`'s
escaping reduces to the per-character map `escMap` (the five two-character
escape passes find nothing to replace). -/
theorem stringEscape_of_no_control (s : List Char)
    (h : ∀ x ∈ s, x ≠ '\n' ∧ x ≠ '\r' ∧ x ≠ '\t' ∧ x ≠ '\x08' ∧ x ≠ '\x0c') :
    stringEscape s = s.flatMap escMap := by
  unfold stringEscape
  rw [pyReplace_of_forall_ne _ _ _ fun x hx => (h x hx).1,
      pyReplace_of_forall_ne _ _ _ fun x hx => (h x hx).2.1,
      pyReplace_of_forall_ne _ _ _ fun x hx => (h x hx).2.2.1,
      pyReplace_of_forall_ne _ _ _ fun x hx => (h x hx).2.2.2.1,
      pyReplace_of_forall_ne _ _ _ fun x hx => (h x hx).2.2.2.2]
  exact triple_escape_eq_flatMap s

/-- `readerUnescapeFuel` ignores the fuel on an empty input. -/
theorem readerUnescapeFuel_nil (fuel : Nat) : readerUnescapeFuel fuel [] = [] := by
  cases fuel <;> rfl

/-- Unescaping step for an escaped backslash. -/
theorem readerUnescapeFuel_bs (f : Nat) (L : List Char) :
    readerUnescapeFuel (f + 1) ('\\' :: '\\' :: L) = '\\' :: readerUnescapeFuel f L := rfl

/-- Unescaping step for an escaped opening parenthesis. -/
theorem readerUnescapeFuel_lp (f : Nat) (L : List Char) :
    readerUnescapeFuel (f + 1) ('\\' :: '(' :: L) = '(' :: readerUnescapeFuel f L := rfl

/-- Unescaping step for an escaped closing parenthesis. -/
theorem readerUnescapeFuel_rp (f : Nat) (L : List Char) :
    readerUnescapeFuel (f + 1) ('\\' :: ')' :: L) = ')' :: readerUnescapeFuel f L := rfl

/-- Unescaping step for an unescaped character. -/
theorem readerUnescapeFuel_plain (f : Nat) (c : Char) (L : List Char) (h : c ≠ '\\') :
    readerUnescapeFuel (f + 1) (c :: L) = c :: readerUnescapeFuel f L := by
  simp only [readerUnescapeFuel, if_neg h]

/-- Each character's image under `escMap` is nonempty. -/
theorem escMap_length_pos (a : Char) : 1 ≤ (escMap a).length := by
  unfold escMap
  split <;> simp

/-- The conformant reader's unescaping inverts the per-character map
`escMap`, given enough fuel. -/
theorem readerUnescapeFuel_flatMap_escMap (s : List Char) :
    ∀ fuel : Nat, (s.flatMap escMap).length ≤ fuel →
      readerUnescapeFuel fuel (s.flatMap escMap) = s := by
  induction s with
  | nil => intro fuel _; exact readerUnescapeFuel_nil fuel
  | cons a s ih =>
    intro fuel h
    have hlen : (escMap a).length + (s.flatMap escMap).length ≤ fuel := by
      simpa [List.flatMap_cons] using h
    have hpos := escMap_length_pos a
    obtain ⟨f, rfl⟩ : ∃ f, fuel = f + 1 := ⟨fuel - 1, by omega⟩
    have hf : (s.flatMap escMap).length ≤ f := by omega
    rw [List.flatMap_cons]
    by_cases h1 : a = '\\'
    · subst h1
      show readerUnescapeFuel (f + 1) ('\\' :: '\\' :: s.flatMap escMap) = '\\' :: s
      rw [readerUnescapeFuel_bs, ih f hf]
    · by_cases h2 : a = '('
      · subst h2
        show readerUnescapeFuel (f + 1) ('\\' :: '(' :: s.flatMap escMap) = '(' :: s
        rw [readerUnescapeFuel_lp, ih f hf]
      · by_cases h3 : a = ')'
        · subst h3
          show readerUnescapeFuel (f + 1) ('\\' :: ')' :: s.flatMap escMap) = ')' :: s
          rw [readerUnescapeFuel_rp, ih f hf]
        · have : escMap a = [a] := by simp [escMap, h1, h2, h3]
          rw [this, List.singleton_append, readerUnescapeFuel_plain f a _ h1, ih f hf]

/-- C2 (counterexample): a string consisting of one newline character does
not survive the escape/unescape round trip — the two-character escape `\n`
produced by the first pass has its backslash doubled by the later
backslash-escaping pass, so a conformant reader reads back a literal
backslash followed by `n`. -/
theorem string_roundtrip_fails_on_newline :
    stringEscape ['\n'] = ['\\', '\\', 'n'] ∧
    readerUnescape (stringEscape ['\n']) = ['\\', 'n'] ∧
    readerUnescape (stringEscape ['\n']) ≠ ['\n'] :=
  ⟨by decide, by decide, by decide⟩

/-- C2 (amended): the escapes are applied in the stated order, and
`unescape(escape(s)) = s` holds for every string containing none of the five
control characters (newline, carriage return, tab, backspace, form feed) —
for strings that do contain one of them the round trip fails, because the
backslash of its two-character escape is escaped again. -/
theorem string_escape_roundtrip (s : List Char)
    (h : ∀ x ∈ s, x ≠ '\n' ∧ x ≠ '\r' ∧ x ≠ '\t' ∧ x ≠ '\x08' ∧ x ≠ '\x0c') :
    readerUnescape (stringEscape s) = s := by
  rw [stringEscape_of_no_control s h]
  exact readerUnescapeFuel_flatMap_escMap s _ le_rfl

/-- Witness for C2 (amended) at the concrete string `a\(b)`. -/
theorem string_escape_roundtrip_witness :
    (∀ x ∈ ['a', '\\', '(', 'b', ')'],
      x ≠ '\n' ∧ x ≠ '\r' ∧ x ≠ '\t' ∧ x ≠ '\x08' ∧ x ≠ '\x0c') ∧
    readerUnescape (stringEscape ['a', '\\', '(', 'b', ')']) = ['a', '\\', '(', 'b', ')'] :=
  ⟨by decide, string_escape_roundtrip ['a', '\\', '(', 'b', ')'] (by decide)⟩

/-- C8: the use-site encoding of a `Null` value raises `AttributeError`
(`Null.__init__` never sets the `identifier` attribute that `Object.bytes`
reads), so it is not the literal `null`, even though `Null._bytes()` is. -/
theorem null_use_site_encoding_raises :
    nullUseSiteBytes = Except.error PyError.attributeError ∧
    nullUseSiteBytes ≠ Except.ok (charBytes "null".data) ∧
    nullDirectBytes = charBytes "null".data := by
  refine ⟨rfl, ?_, rfl⟩
  intro h
  simp [nullUseSiteBytes, objectUseSiteBytes, isDirectAttr, Bind.bind, Except.bind] at h

/-- C1: writing the same unmodified document twice does not produce
byte-identical output: `Document.write` appends to the document's one
persistent `XRefTable` instead of rebuilding it, so the second write's xref
table holds every entry twice and its trailer `Size` grows, although the
document's registered objects are untouched between the calls. -/
theorem write_twice_differs :
    (writeDocument minimalDoc).2.objects = minimalDoc.objects ∧
    (writeDocument minimalDoc).2.xref_table.objects.length = 2 ∧
    (writeDocument (writeDocument minimalDoc).2).2.xref_table.objects.length = 4 ∧
    (writeDocument (writeDocument minimalDoc).2).1 ≠ (writeDocument minimalDoc).1 :=
  ⟨rfl, by decide, by decide, by decide⟩

/-- A newline encodes to one byte. -/
theorem newline_byte_length : (charBytes "\n".data).length = 1 := rfl

/-- What the object loop of `Document.write` produces: the objects' indirect
bytes, each followed by a newline, appended to the prior output; and on the
xref table, the objects' generations and start offsets, appended in
registration order. -/
theorem writeObjects_spec (objs : List WObj) (out : Bytes) (t : XRefTable) :
    (writeObjects objs out t).1 =
      out ++ (objs.flatMap fun o => indirectBytes o ++ charBytes "\n".data) ∧
    (writeObjects objs out t).2.addresses = t.addresses ++ objOffsets objs out.length ∧
    (writeObjects objs out t).2.objects = t.objects ++ objs.map (·.generation) := by
  induction objs generalizing out t with
  | nil => simp [writeObjects, objOffsets]
  | cons o rest ih =>
    obtain ⟨h1, h2, h3⟩ := ih (out ++ indirectBytes o ++ charBytes "\n".data)
      (t.append o.generation out.length)
    have hb : (out ++ indirectBytes o ++ charBytes "\n".data).length =
        out.length + (indirectBytes o).length + 1 := by
      rw [List.length_append, List.length_append, newline_byte_length]
    refine ⟨?_, ?_, ?_⟩
    · rw [writeObjects, h1]
      simp [List.flatMap_cons, List.append_assoc]
    · rw [writeObjects, h2, hb]
      simp [XRefTable.append, objOffsets, List.append_assoc]
    · rw [writeObjects, h3]
      simp [XRefTable.append, List.append_assoc]

/-- There is one recorded offset per written object. -/
theorem objOffsets_length (objs : List WObj) (p : Nat) :
    (objOffsets objs p).length = objs.length := by
  induction objs generalizing p with
  | nil => rfl
  | cons o rest ih => simp [objOffsets, ih]

/-- Every recorded offset lies within the output written so far. -/
theorem objOffsets_getD_le (objs : List WObj) (p i : Nat) :
    (objOffsets objs p).getD i 0 ≤
      p + (objs.flatMap fun o => indirectBytes o ++ charBytes "\n".data).length := by
  induction objs generalizing p i with
  | nil => simp [objOffsets]
  | cons o rest ih =>
    cases i with
    | zero => simp [objOffsets]
    | succ i =>
      have hrec := ih (p + (indirectBytes o).length + 1) i
      simp only [objOffsets, List.getD_cons_succ, List.flatMap_cons, List.length_append,
        charBytes, List.length_map, List.length_cons, List.length_nil] at hrec ⊢
      omega

/-- At the offset recorded for the `i`-th object, the output continues with
that object's `{id} {gen} obj` header. -/
theorem objHeader_prefix_aux (objs : List WObj) (pre : Bytes) (i : Nat)
    (hi : i < objs.length) :
    charBytes (objHeader (objs.getD i ⟨0, 0, []⟩)) <+:
      ((pre ++ objs.flatMap fun o => indirectBytes o ++ charBytes "\n".data).drop
        ((objOffsets objs pre.length).getD i 0)) := by
  induction objs generalizing pre i with
  | nil => simp at hi
  | cons o rest ih =>
    cases i with
    | zero =>
      simp only [List.getD_cons_zero, objOffsets, List.flatMap_cons]
      rw [show pre ++ ((indirectBytes o ++ charBytes "\n".data) ++
            rest.flatMap fun o => indirectBytes o ++ charBytes "\n".data) =
          pre ++ (indirectBytes o ++ charBytes "\n".data ++
            rest.flatMap fun o => indirectBytes o ++ charBytes "\n".data) from by
        simp [List.append_assoc]]
      rw [List.drop_left]
      rw [indirectBytes, show charBytes (objHeader o ++ "\n".data) =
          charBytes (objHeader o) ++ charBytes "\n".data from List.map_append _ _ _]
      simp [List.append_assoc]
    | succ i =>
      have hlen : pre.length + (indirectBytes o).length + 1 =
          (pre ++ indirectBytes o ++ charBytes "\n".data).length := by
        rw [List.length_append, List.length_append, newline_byte_length]
      have hre : pre ++ ((o :: rest).flatMap fun o => indirectBytes o ++ charBytes "\n".data) =
          (pre ++ indirectBytes o ++ charBytes "\n".data) ++
            rest.flatMap fun o => indirectBytes o ++ charBytes "\n".data := by
        simp [List.flatMap_cons, List.append_assoc]
      rw [hre]
      simp only [List.getD_cons_succ, objOffsets, hlen]
      exact ih (pre ++ indirectBytes o ++ charBytes "\n".data) i (by simpa using hi)

/-- C6: on the first write of a document, one xref offset is recorded per
registered object, and the `i`-th recorded offset is exactly the byte
position in the output at which the `i`-th object's `{id} {generation} obj`
line begins. -/
theorem xref_offsets_accurate (d : WDoc) (hfresh : d.xref_table = XRefTable.empty)
    (i : Nat) (hi : i < d.objects.length) :
    (writeDocument d).2.xref_table.addresses.length = d.objects.length ∧
    charBytes (objHeader (d.objects.getD i ⟨0, 0, []⟩)) <+:
      ((writeDocument d).1.drop ((writeDocument d).2.xref_table.addresses.getD i 0)) := by
  obtain ⟨h1, h2, _⟩ := writeObjects_spec d.objects headerBytes d.xref_table
  have hxr : (writeDocument d).2.xref_table =
      (writeObjects d.objects headerBytes d.xref_table).2 := rfl
  have haddr : (writeDocument d).2.xref_table.addresses =
      objOffsets d.objects headerBytes.length := by
    rw [hxr, h2, hfresh]
    rfl
  constructor
  · rw [haddr, objOffsets_length]
  · have hout : (writeDocument d).1 =
        (headerBytes ++ d.objects.flatMap fun o => indirectBytes o ++ charBytes "\n".data) ++
          ((writeObjects d.objects headerBytes d.xref_table).2.toBytes ++
            charBytes "\n".data ++ charBytes "trailer\n".data ++
            dictBytes [("Size".data,
                intBytes (writeObjects d.objects headerBytes d.xref_table).2.size),
              ("Root".data, refBytes d.catalogRef)] ++
            charBytes "\n".data ++ charBytes "startxref\n".data ++
            charBytes (natStr (writeObjects d.objects headerBytes d.xref_table).1.length) ++
            charBytes "\n".data ++ charBytes "%%EOF\n".data) := by
      conv_lhs => rw [show (writeDocument d).1 =
        (writeObjects d.objects headerBytes d.xref_table).1 ++
          ((writeObjects d.objects headerBytes d.xref_table).2.toBytes ++
            charBytes "\n".data ++ charBytes "trailer\n".data ++
            dictBytes [("Size".data,
                intBytes (writeObjects d.objects headerBytes d.xref_table).2.size),
              ("Root".data, refBytes d.catalogRef)] ++
            charBytes "\n".data ++ charBytes "startxref\n".data ++
            charBytes (natStr (writeObjects d.objects headerBytes d.xref_table).1.length) ++
            charBytes "\n".data ++ charBytes "%%EOF\n".data) from by
          simp [writeDocument, List.append_assoc]]
      rw [h1]
    rw [hout, haddr, List.drop_append_of_le_length
      (by simpa using objOffsets_getD_le d.objects headerBytes.length i)]
    exact (objHeader_prefix_aux d.objects headerBytes i hi).trans (List.prefix_append _ _)

/-- Witness for C6: the minimal fresh document, first object.  Its recorded
offset is byte 15, right after the header and binary-marker lines. -/
theorem xref_offsets_accurate_witness :
    minimalDoc.xref_table = XRefTable.empty ∧ 0 < minimalDoc.objects.length ∧
    (writeDocument minimalDoc).2.xref_table.addresses.getD 0 0 = 15 ∧
    ((writeDocument minimalDoc).2.xref_table.addresses.length = minimalDoc.objects.length ∧
      charBytes (objHeader (minimalDoc.objects.getD 0 ⟨0, 0, []⟩)) <+:
        ((writeDocument minimalDoc).1.drop
          ((writeDocument minimalDoc).2.xref_table.addresses.getD 0 0))) :=
  ⟨rfl, by decide, by decide, xref_offsets_accurate minimalDoc rfl 0 (by decide)⟩

/-- `Nat.toDigitsCore` with enough fuel produces the reference digit list,
in front of its accumulator. -/
theorem toDigitsCore_eq_decimalDigits (fuel : Nat) :
    ∀ (n : Nat) (ds : List Char), n < fuel →
      Nat.toDigitsCore 10 fuel n ds = decimalDigits n ++ ds := by
  induction fuel with
  | zero => intro n ds h; omega
  | succ fuel ih =>
    intro n ds h
    rw [Nat.toDigitsCore]
    by_cases h10 : n / 10 = 0
    · have hn : n < 10 := by omega
      rw [if_pos h10, decimalDigits, if_pos hn, Nat.mod_eq_of_lt hn]
      rfl
    · have hn : ¬n < 10 := by
        intro hlt
        exact h10 (Nat.div_eq_of_lt hlt)
      rw [if_neg h10, ih (n / 10) _ (by omega)]
      conv_rhs => rw [decimalDigits]
      rw [if_neg hn, List.append_assoc]
      rfl

/-- `str(n)` produces exactly the reference decimal digits. -/
theorem natStr_eq_decimalDigits (n : Nat) : natStr n = decimalDigits n := by
  show Nat.toDigitsCore 10 (n + 1) n [] = decimalDigits n
  rw [toDigitsCore_eq_decimalDigits (n + 1) n [] (by omega), List.append_nil]

/-- A digit character for a value below ten is a decimal digit. -/
theorem digitChar_isDigit (m : Nat) (h : m < 10) : (Nat.digitChar m).isDigit := by
  interval_cases m <;> decide

/-- A digit character's numeric value. -/
theorem digitChar_toNat (m : Nat) (h : m < 10) : (Nat.digitChar m).toNat - 48 = m := by
  interval_cases m <;> decide

/-- Every character of the reference digit list is a decimal digit. -/
theorem decimalDigits_all_digits (n : Nat) : ∀ c ∈ decimalDigits n, c.isDigit := by
  induction n using Nat.strong_induction_on with
  | _ n ih =>
    rw [decimalDigits]
    by_cases h : n < 10
    · rw [if_pos h]
      intro c hc
      rw [List.mem_singleton] at hc
      subst hc
      exact digitChar_isDigit n h
    · rw [if_neg h]
      intro c hc
      rcases List.mem_append.mp hc with hc | hc
      · exact ih (n / 10) (Nat.div_lt_self (by omega) (by omega)) c hc
      · rw [List.mem_singleton] at hc
        subst hc
        exact digitChar_isDigit _ (Nat.mod_lt _ (by omega))

/-- A number below `10 ^ k` has at most `k` decimal digits. -/
theorem decimalDigits_length_le (n : Nat) : ∀ k : Nat, n < 10 ^ k → 1 ≤ k →
    (decimalDigits n).length ≤ k := by
  induction n using Nat.strong_induction_on with
  | _ n ih =>
    intro k hk h1
    rw [decimalDigits]
    by_cases h : n < 10
    · rw [if_pos h]
      simpa using h1
    · rw [if_neg h]
      obtain ⟨j, rfl⟩ : ∃ j, k = j + 1 := ⟨k - 1, by omega⟩
      have hj1 : 1 ≤ j := by
        by_contra hj
        have : j = 0 := by omega
        subst this
        simp at hk
        omega
      have hdiv : n / 10 < 10 ^ j := by
        rw [Nat.div_lt_iff_lt_mul (by omega)]
        calc n < 10 ^ (j + 1) := hk
        _ = 10 ^ j * 10 := by ring
      have := ih (n / 10) (Nat.div_lt_self (by omega) (by omega)) j hdiv hj1
      simp only [List.length_append, List.length_singleton]
      omega

/-- The reference digit list evaluates back to its number. -/
theorem decimalValue_decimalDigits (n : Nat) : decimalValue (decimalDigits n) = n := by
  induction n using Nat.strong_induction_on with
  | _ n ih =>
    rw [decimalDigits]
    by_cases h : n < 10
    · rw [if_pos h]
      show 0 * 10 + ((Nat.digitChar n).toNat - 48) = n
      rw [Nat.zero_mul, Nat.zero_add]
      exact digitChar_toNat n h
    · rw [if_neg h]
      have hrec := ih (n / 10) (Nat.div_lt_self (by omega) (by omega))
      rw [decimalValue, List.foldl_append]
      show (decimalValue (decimalDigits (n / 10))) * 10 +
        ((Nat.digitChar (n % 10)).toNat - 48) = n
      rw [hrec, digitChar_toNat _ (Nat.mod_lt _ (by omega))]
      omega

/-- A number below `10 ^ k` prints with at most `k` characters. -/
theorem natStr_length_le (n k : Nat) (hk : 1 ≤ k) (h : n < 10 ^ k) :
    (natStr n).length ≤ k := by
  rw [natStr_eq_decimalDigits]
  exact decimalDigits_length_le n k h hk

/-- `'{:0wd}'` pads to exactly width `w` when the number fits. -/
theorem zeroPad_length (w n : Nat) (h : (natStr n).length ≤ w) :
    (zeroPad w n).length = w := by
  simp only [zeroPad, List.length_append, List.length_replicate]
  omega

/-- Every character of a zero-padded number is a decimal digit. -/
theorem zeroPad_all_digits (w n : Nat) : ∀ c ∈ zeroPad w n, c.isDigit := by
  intro c hc
  rcases List.mem_append.mp hc with hc | hc
  · rw [List.eq_of_mem_replicate hc]
    decide
  · rw [natStr_eq_decimalDigits] at hc
    exact decimalDigits_all_digits n c hc

/-- Leading zeros contribute nothing to a decimal value. -/
theorem foldl_decimal_replicate_zero (k : Nat) :
    List.foldl (fun a c => a * 10 + (c.toNat - 48)) 0 (List.replicate k '0') = 0 := by
  induction k with
  | zero => rfl
  | succ k ih =>
    rw [List.replicate_succ, List.foldl_cons]
    exact ih

/-- A zero-padded number still evaluates to itself. -/
theorem decimalValue_zeroPad (w n : Nat) : decimalValue (zeroPad w n) = n := by
  rw [zeroPad, decimalValue, List.foldl_append, foldl_decimal_replicate_zero,
    natStr_eq_decimalDigits]
  exact decimalValue_decimalDigits n

/-- A decimal digit is not a newline. -/
theorem isDigit_ne_newline (c : Char) (h : c.isDigit) : c ≠ '\n' := by
  intro heq
  subst heq
  exact absurd h (by decide)

/-- A newline-free string is a single line. -/
theorem linesOf_no_newline (A : List Char) (h : ∀ c ∈ A, c ≠ '\n') :
    linesOf A = [A] := by
  induction A with
  | nil => rfl
  | cons a A ih =>
    rw [linesOf, if_neg (h a (by simp)), ih fun c hc => h c (by simp [hc])]

/-- Splitting after a newline-free first segment. -/
theorem linesOf_append_newline (A B : List Char) (h : ∀ c ∈ A, c ≠ '\n') :
    linesOf (A ++ '\n' :: B) = A :: linesOf B := by
  induction A with
  | nil =>
    show linesOf ('\n' :: B) = [] :: linesOf B
    rw [linesOf, if_pos rfl]
  | cons a A ih =>
    rw [List.cons_append, linesOf, if_neg (h a (by simp)),
      ih fun c hc => h c (by simp [hc])]

/-- A newline-free head segment followed by newline-prefixed newline-free
segments splits into exactly those lines. -/
theorem linesOf_flatten (ls : List (List Char)) :
    ∀ l0 : List Char, (∀ c ∈ l0, c ≠ '\n') → (∀ l ∈ ls, ∀ c ∈ l, c ≠ '\n') →
      linesOf (l0 ++ (ls.map fun l => '\n' :: l).flatten) = l0 :: ls := by
  induction ls with
  | nil =>
    intro l0 h0 _
    simpa using linesOf_no_newline l0 h0
  | cons l ls ih =>
    intro l0 h0 hls
    rw [List.map_cons, List.flatten_cons,
      show l0 ++ (('\n' :: l) ++ (ls.map fun l => '\n' :: l).flatten) =
        l0 ++ '\n' :: (l ++ (ls.map fun l => '\n' :: l).flatten) from by simp,
      linesOf_append_newline l0 _ h0,
      ih l (hls l (by simp)) fun l' hl' => hls l' (by simp [hl'])]

/-- The generations and addresses a sequence of appends leaves on the table. -/
theorem buildXRef_fields (entries : List (Nat × Nat)) :
    (buildXRef entries).objects = entries.map (·.1) ∧
    (buildXRef entries).addresses = entries.map (·.2) := by
  have key : ∀ (t : XRefTable),
      (entries.foldl (fun t e => t.append e.1 e.2) t).objects =
        t.objects ++ entries.map (·.1) ∧
      (entries.foldl (fun t e => t.append e.1 e.2) t).addresses =
        t.addresses ++ entries.map (·.2) := by
    induction entries with
    | nil => intro t; simp
    | cons e es ih =>
      intro t
      obtain ⟨h1, h2⟩ := ih (t.append e.1 e.2)
      simp only [List.foldl_cons, List.map_cons]
      rw [h1, h2]
      simp [XRefTable.append, List.append_assoc]
  simpa [buildXRef, XRefTable.empty] using key XRefTable.empty

/-- Characters of a string that does not contain a newline. -/
theorem no_newline_of_not_mem (A : List Char) (h : '\n' ∉ A) :
    ∀ c ∈ A, c ≠ '\n' :=
  fun _ hc heq => h (heq ▸ hc)

/-- One xref entry line contains no newline. -/
theorem xref_entry_line_no_newline (e : Nat × Nat) :
    ∀ c ∈ zeroPad 10 e.2 ++ " ".data ++ zeroPad 5 e.1 ++ " n ".data, c ≠ '\n' := by
  intro c hc
  rcases List.mem_append.mp hc with hc | hc
  · rcases List.mem_append.mp hc with hc | hc
    · rcases List.mem_append.mp hc with hc | hc
      · exact isDigit_ne_newline c (zeroPad_all_digits 10 e.2 c hc)
      · exact no_newline_of_not_mem _ (by decide) c hc
    · exact isDigit_ne_newline c (zeroPad_all_digits 5 e.1 c hc)
  · exact no_newline_of_not_mem _ (by decide) c hc

/-- C5: for a table holding `N` appended objects, the emitted text splits
into exactly the line `xref`, the line `0 {N+1}`, the fixed free-list head
entry `0000000000 65535 f ` (trailing space included), then one line per
object in append order, built as the 10-character zero-padded address, a
space, the 5-character zero-padded generation, and ` n ` — and, whenever
address and generation fit their fields, the padded fields are exactly 10
and 5 decimal digits and evaluate back to the address and generation. -/
theorem xref_table_layout (entries : List (Nat × Nat))
    (haddr : ∀ e ∈ entries, e.2 < 10 ^ 10) (hgen : ∀ e ∈ entries, e.1 < 10 ^ 5) :
    linesOf (buildXRef entries).str =
      ["xref".data, "0 ".data ++ natStr (entries.length + 1),
        "0000000000 65535 f ".data] ++
        entries.map (fun e => zeroPad 10 e.2 ++ " ".data ++ zeroPad 5 e.1 ++ " n ".data) ∧
    ∀ e ∈ entries,
      (zeroPad 10 e.2).length = 10 ∧ decimalValue (zeroPad 10 e.2) = e.2 ∧
      (∀ c ∈ zeroPad 10 e.2, c.isDigit) ∧
      (zeroPad 5 e.1).length = 5 ∧ decimalValue (zeroPad 5 e.1) = e.1 ∧
      (∀ c ∈ zeroPad 5 e.1, c.isDigit) := by
  have hstr : (buildXRef entries).str =
      "xref".data ++ '\n' :: (("0 ".data ++ natStr (entries.length + 1)) ++ '\n' ::
        ("0000000000 65535 f ".data ++
          ((entries.map fun e =>
              zeroPad 10 e.2 ++ " ".data ++ zeroPad 5 e.1 ++ " n ".data).map
            fun l => '\n' :: l).flatten)) := by
    obtain ⟨ho, ha⟩ := buildXRef_fields entries
    rw [XRefTable.str, ho, ha, List.zip_map', List.map_map, List.map_map]
    simp [Function.comp_def, List.append_assoc]
  have hB : ∀ c ∈ "0 ".data ++ natStr (entries.length + 1), c ≠ '\n' := by
    intro c hc
    rcases List.mem_append.mp hc with hc | hc
    · exact no_newline_of_not_mem _ (by decide) c hc
    · rw [natStr_eq_decimalDigits] at hc
      exact isDigit_ne_newline c (decimalDigits_all_digits _ c hc)
  constructor
  · rw [hstr, linesOf_append_newline _ _ (no_newline_of_not_mem _ (by decide)),
      linesOf_append_newline _ _ hB,
      linesOf_flatten _ _ (no_newline_of_not_mem _ (by decide)) fun l hl => by
        obtain ⟨e, _, rfl⟩ := List.mem_map.mp hl
        exact xref_entry_line_no_newline e]
    rfl
  · intro e he
    exact ⟨zeroPad_length 10 e.2 (natStr_length_le e.2 10 (by omega) (haddr e he)),
      decimalValue_zeroPad 10 e.2, zeroPad_all_digits 10 e.2,
      zeroPad_length 5 e.1 (natStr_length_le e.1 5 (by omega) (hgen e he)),
      decimalValue_zeroPad 5 e.1, zeroPad_all_digits 5 e.1⟩

/-- Witness for C5 at a concrete two-entry table (both generations 0,
addresses 15 and 73). -/
theorem xref_table_layout_witness :
    (∀ e ∈ [(0, 15), (0, 73)], (e : Nat × Nat).2 < 10 ^ 10) ∧
    (∀ e ∈ [(0, 15), (0, 73)], (e : Nat × Nat).1 < 10 ^ 5) ∧
    (linesOf (buildXRef [(0, 15), (0, 73)]).str =
      ["xref".data, "0 ".data ++ natStr 3, "0000000000 65535 f ".data] ++
        [(0, 15), (0, 73)].map
          (fun e => zeroPad 10 e.2 ++ " ".data ++ zeroPad 5 e.1 ++ " n ".data) ∧
    ∀ e ∈ [(0, 15), (0, 73)],
      (zeroPad 10 e.2).length = 10 ∧ decimalValue (zeroPad 10 e.2) = e.2 ∧
      (∀ c ∈ zeroPad 10 e.2, c.isDigit) ∧
      (zeroPad 5 e.1).length = 5 ∧ decimalValue (zeroPad 5 e.1) = e.1 ∧
      (∀ c ∈ zeroPad 5 e.1, c.isDigit)) :=
  ⟨by decide, by decide, xref_table_layout [(0, 15), (0, 73)] (by decide) (by decide)⟩

/-- The C10 invariant: `Count` equals the number of `Kids`, and every kid is
the reference of a registered page whose `Parent` entry is the `Pages`
node's reference. -/
def pagesInv (s : PagesDoc) : Prop :=
  s.count = s.kids.length ∧
  ∀ r ∈ s.kids, (r.identifier, s.pagesRef) ∈ s.pageParents

/-- `new_page` preserves the C10 invariant. -/
theorem pagesInv_newPage (s : PagesDoc) (w h : ℚ) (hs : pagesInv s) :
    pagesInv (newPage s w h) := by
  obtain ⟨h1, h2⟩ := hs
  constructor
  · simp [newPage, h1]
  · intro r hr
    simp only [newPage, List.mem_append, List.mem_singleton] at hr ⊢
    rcases hr with hr | hr
    · exact Or.inl (h2 r hr)
    · subst hr
      exact Or.inr (by simp)

/-- The C10 invariant holds after any sequence of `new_page` calls from any
state satisfying it. -/
theorem pagesInv_foldl (dims : List (ℚ × ℚ)) (s : PagesDoc) (hs : pagesInv s) :
    pagesInv (dims.foldl (fun s wh => newPage s wh.1 wh.2) s) := by
  induction dims generalizing s with
  | nil => exact hs
  | cons wh dims ih => exact ih _ (pagesInv_newPage s wh.1 wh.2 hs)

/-- C10: after every sequence of `new_page` calls on a fresh document's
`Pages` node, its `Count` entry equals the length of its `Kids` array, each
kid is the reference of a page whose `Parent` entry is the `Pages` node's
reference, and one further `new_page` call increases both `Count` and the
`Kids` length by exactly one. -/
theorem pages_count_equals_kids (dims : List (ℚ × ℚ)) :
    (newPages dims).count = (newPages dims).kids.length ∧
    (∀ r ∈ (newPages dims).kids,
      (r.identifier, (newPages dims).pagesRef) ∈ (newPages dims).pageParents) ∧
    ∀ w h : ℚ,
      (newPage (newPages dims) w h).count = (newPages dims).count + 1 ∧
      (newPage (newPages dims) w h).kids.length = (newPages dims).kids.length + 1 := by
  obtain ⟨h1, h2⟩ :=
    pagesInv_foldl dims freshPagesDoc (by constructor <;> simp [freshPagesDoc])
  exact ⟨h1, h2, fun w h => ⟨rfl, by simp [newPage]⟩⟩

/-- C9: registering one font on two fresh pages of one document creates the
document-level `Font` dictionary exactly once — the second page's
registration leaves the document cache untouched and records a reference to
the same `Font` object — while each page independently allocates the alias
`F1`; repeating the registration on the first page returns the cached alias
and changes nothing. -/
theorem register_font_shared_across_pages
    (core : Nat → Bool) (psName : Nat → List Char) (d : FontDoc) (font : Nat)
    (hmiss : dictLookup font d.fonts = none) (hcore : core font = true) :
    ∃ rsc d1 p1,
      pageRegisterFont core psName d freshFontPage font = .ok ("F1".data, d1, p1) ∧
      d1.fonts = d.fonts ++ [(font, rsc)] ∧
      p1.resourceFonts = [("F1".data, ⟨rsc.identifier, 0⟩)] ∧
      pageRegisterFont core psName d1 freshFontPage font =
        .ok ("F1".data, d1,
          { font_number := 2
            font_names := [(font, "F1".data)]
            resourceFonts := [("F1".data, ⟨rsc.identifier, 0⟩)] }) ∧
      pageRegisterFont core psName d1 p1 font = .ok ("F1".data, d1, p1) := by
  have hfind : d.fonts.find? (fun e => e.1 == font) = none := by
    by_contra hne
    obtain ⟨e, he⟩ := Option.ne_none_iff_exists'.mp hne
    simp [dictLookup, he] at hmiss
  refine ⟨⟨d.cosIdentifier + 1, "Type1".data, psName font⟩,
    ⟨d.cosIdentifier + 1,
      d.fonts ++ [(font, ⟨d.cosIdentifier + 1, "Type1".data, psName font⟩)]⟩,
    ⟨2, [(font, "F1".data)], [("F1".data, ⟨d.cosIdentifier + 1, 0⟩)]⟩,
    ?_, rfl, rfl, ?_, ?_⟩
  · simp [pageRegisterFont, documentRegisterFont, freshFontPage, dictLookup, hfind, hcore,
      Bind.bind, Except.bind, natStr]
    decide
  · simp [pageRegisterFont, documentRegisterFont, freshFontPage, dictLookup,
      List.find?_append, hfind, Bind.bind, Except.bind, natStr]
    decide
  · simp [pageRegisterFont, dictLookup, natStr]

/-- Witness for C9: a concrete document with an empty font cache, a core
font, and two fresh pages. -/
theorem register_font_shared_witness :
    dictLookup 7 (FontDoc.mk 2 []).fonts = none ∧ (fun _ : Nat => true) 7 = true ∧
    ∃ rsc d1 p1,
      pageRegisterFont (fun _ => true) (fun _ => "Helvetica".data)
          (FontDoc.mk 2 []) freshFontPage 7 = .ok ("F1".data, d1, p1) ∧
      d1.fonts = (FontDoc.mk 2 []).fonts ++ [(7, rsc)] ∧
      p1.resourceFonts = [("F1".data, ⟨rsc.identifier, 0⟩)] ∧
      pageRegisterFont (fun _ => true) (fun _ => "Helvetica".data) d1 freshFontPage 7 =
        .ok ("F1".data, d1,
          { font_number := 2
            font_names := [(7, "F1".data)]
            resourceFonts := [("F1".data, ⟨rsc.identifier, 0⟩)] }) ∧
      pageRegisterFont (fun _ => true) (fun _ => "Helvetica".data) d1 p1 7 =
        .ok ("F1".data, d1, p1) :=
  ⟨rfl, rfl, register_font_shared_across_pages (fun _ => true)
    (fun _ => "Helvetica".data) (FontDoc.mk 2 []) 7 rfl rfl⟩

end Pyte
